import Mathlib

/-!
# g2core, board `tm240_b`: hardware support functions and the tm240 settings profile

A shallow embedding of `g2core/board/tm240_b/hardware.cpp` and of the digital-input
and axis homing-input parts of `g2core/settings/settings_tm240.h`.

* Globals of `namespace LEDs` become the fields of the structure `LEDs`.
* Calls that leave the translation unit and act on the hardware
  (`board_hardware_init`, `rgbw_leds.update`, `output_manage_monostable`,
  `Motate::System::reset`) are recorded, in call order, in a trace of `HwEvent`s.
* Values read from the rest of the firmware (`cm_get_machine_state`,
  `mp_is_phat_city_time`) are the fields of `World`.
* `float` channels are rationals; rounding is not modelled.
-/

namespace G2

/-! ## Types declared outside the two source files -/

/-- Status code `stat_t`; the functions embedded here only ever return `STAT_OK`. -/
abbrev stat_t := Nat

/-- Status `STAT_OK`. -/
def STAT_OK : stat_t := 0

/-- Modelled from the spec: the enumeration `cmMachineState` is declared in
`canonical_machine.h`, which is not among the sources; the variants are the ones the
data model lists (RUNNING, HOLDING, ALARM, SHUTDOWN, IDLE, PANIC). -/
inductive cmMachineState where
  | RUNNING
  | HOLDING
  | ALARM
  | SHUTDOWN
  | IDLE
  | PANIC
  deriving DecidableEq, Repr

/-- Value types of an `nvObj_t`; `hardware.cpp` assigns `TYPE_STRING` and `TYPE_INT`. -/
inductive valueType where
  | TYPE_NULL
  | TYPE_FLOAT
  | TYPE_INT
  | TYPE_STRING
  deriving DecidableEq, Repr

/-- The two fields of `nvObj_t` that `hardware.cpp` reads or writes on the LED paths. -/
structure nvObj_t where
  value : ℚ
  valuetype : valueType
  deriving DecidableEq

/-- What the rest of the firmware answers when `hardware.cpp` asks:
`cm_get_machine_state()` and `mp_is_phat_city_time()`. -/
structure World where
  machine_state : cmMachineState
  phat_city_time : Bool
  deriving DecidableEq

/-! ## Colour / transition model (`neopixel.h`) -/

/-- A pixel colour: four channels. -/
structure Color where
  red : ℚ
  green : ℚ
  blue : ℚ
  white : ℚ
  deriving DecidableEq

/-- Clamp a channel to the normalized range `[0, 1]`. -/
def clamp01 (x : ℚ) : ℚ := max 0 (min 1 x)

/-- Clamp every channel of a colour. -/
def Color.clamp (c : Color) : Color :=
  { red := clamp01 c.red, green := clamp01 c.green, blue := clamp01 c.blue,
    white := clamp01 c.white }

/-- Linear interpolation between `a` and `b` at fraction `t`. -/
def lerp (a b t : ℚ) : ℚ := a + (b - a) * t

/-- Modelled from the spec: `RGB_Color_t` is declared in `neopixel.h`, which is not among
the sources. A colour with its transition: start colour, target colour, duration and
elapsed time (spec, "Color Transition"). -/
structure RGB_Color_t where
  start : Color
  target : Color
  duration : ℚ
  elapsed : ℚ
  deriving DecidableEq

/-- Modelled from the spec: the aggregate initialiser `{r, g, b, w}` of `neopixel.h`
(not among the sources). It builds a colour holding exactly those four channel values,
with no transition in progress. -/
def RGB_Color_t.ofChannels (r g b w : ℚ) : RGB_Color_t :=
  { start := ⟨r, g, b, w⟩, target := ⟨r, g, b, w⟩, duration := 0, elapsed := 0 }

/-- Modelled from the spec: a transition is active while `elapsed < duration`
(`neopixel.h` is not among the sources). -/
def RGB_Color_t.active (c : RGB_Color_t) : Bool := decide (c.elapsed < c.duration)

/-- Modelled from the spec: the rendered colour of `neopixel.h` (not among the sources).
While the transition is active it is the linear interpolation between start and target at
`elapsed / duration`, clamped to `[0, 1]`; once inactive it equals the target exactly. -/
def RGB_Color_t.rendered (c : RGB_Color_t) : Color :=
  if c.active then
    { red := clamp01 (lerp c.start.red c.target.red (c.elapsed / c.duration)),
      green := clamp01 (lerp c.start.green c.target.green (c.elapsed / c.duration)),
      blue := clamp01 (lerp c.start.blue c.target.blue (c.elapsed / c.duration)),
      white := clamp01 (lerp c.start.white c.target.white (c.elapsed / c.duration)) }
  else c.target

/-- Modelled from the spec: `startTransition` of `neopixel.h` (not among the sources).
It begins interpolating from the current rendered colour to the given target over
`duration`; inputs are clamped to their valid ranges; a zero duration leaves no active
transition, so the colour is the target immediately. -/
def RGB_Color_t.startTransition (targetR targetG targetB targetW duration : ℚ)
    (c : RGB_Color_t) : RGB_Color_t :=
  { start := c.rendered,
    target := Color.clamp ⟨targetR, targetG, targetB, targetW⟩,
    duration := max 0 duration,
    elapsed := 0 }

/-- Modelled from the spec: `advance(deltaTime)` of `neopixel.h` (not among the sources).
It advances the elapsed time of an active transition and is a no-op on an inactive one. -/
def RGB_Color_t.advance (deltaTime : ℚ) (c : RGB_Color_t) : RGB_Color_t :=
  if c.active then { c with elapsed := min c.duration (c.elapsed + max 0 deltaTime) } else c

/-- Modelled from the spec: `getRGB(r, g, b)` of `neopixel.h` (not among the sources)
returns the instantaneous rendered red, green and blue channels. -/
def RGB_Color_t.getRGB (c : RGB_Color_t) : ℚ × ℚ × ℚ :=
  (c.rendered.red, c.rendered.green, c.rendered.blue)

/-! ## Status LED driver (`neopixel.h`) -/

/-- Modelled from the spec: the driver `NeoPixel<pin, count>` of `neopixel.h` (not among
the sources) owns a pixel buffer of fixed length `count`. -/
structure NeoPixel where
  count : Nat
  pixels : List Color
  deriving DecidableEq

/-- Modelled from the spec: `setPixel(index, color)` of `neopixel.h` (not among the
sources) writes a colour into the buffer at `index`; an out-of-range index is ignored. -/
def NeoPixel.setPixel (index : Nat) (color : Color) (np : NeoPixel) : NeoPixel :=
  { np with pixels := np.pixels.set index color }

/-- Calls on the hardware, in the order they are made. `neopixel_update frame` is
`rgbw_leds.update()`, which transfers the whole pixel buffer `frame` to the bus. -/
inductive HwEvent where
  | board_hardware_init
  | neopixel_update (frame : List Color)
  | output_manage_monostable
  | system_reset (bootloader : Bool)
  deriving DecidableEq

/-! ## `namespace LEDs` and the board state -/

/-- The globals of `namespace LEDs` in `hardware.cpp`. -/
structure LEDs where
  rgbw_leds : NeoPixel
  display_color : List RGB_Color_t
  alarm_red : Bool
  shutdown_white : Bool
  last_see_machine_state : cmMachineState
  deriving DecidableEq

/-- The board state: the LED globals and the trace of hardware calls made so far. -/
structure Board where
  leds : LEDs
  trace : List HwEvent
  deriving DecidableEq

/-- The colour `display_color[0]` is declared with: `{0.1, 0, 0, 5}`. -/
def display_color_declared : RGB_Color_t := RGB_Color_t.ofChannels (1 / 10) 0 0 5

/-- The globals as declared in `namespace LEDs`: one pixel (`NeoPixel<..., 1>`),
`display_color[] {{0.1, 0, 0, 5}}`, both pulse flags false. `last_see_machine_state` has
no initialiser; `m` is the value it holds before `hardware_init` runs. -/
def LEDs.declared (m : cmMachineState) : LEDs :=
  { rgbw_leds := { count := 1, pixels := [⟨0, 0, 0, 0⟩] },
    display_color := [display_color_declared],
    alarm_red := false,
    shutdown_white := false,
    last_see_machine_state := m }

/-- The board at power-up: declared globals, no hardware call made yet. -/
def Board.power_up (m : cmMachineState) : Board :=
  { leds := LEDs.declared m, trace := [] }

/-- Method `rgbw_leds.update()`: push the current pixel buffer to the hardware. -/
def rgbw_leds_update (b : Board) : Board :=
  { b with trace := b.trace ++ [HwEvent.neopixel_update b.leds.rgbw_leds.pixels] }

/-- One iteration of the loop body of `hardware_init`:
`display_color[pixel].startTransition(0, 0, 0, 0);`
`rgbw_leds.setPixel(pixel, display_color[pixel]);`.
The source passes four zero arguments; whichever of them is the duration, every target
channel passed is zero and the spec reads the call as a zero-duration transition, so the
call is the transition to `(0, 0, 0, 0)` over duration `0`. -/
def hardware_init_pixel (l : LEDs) (pixel : Nat) : LEDs :=
  let display_color := l.display_color.modify (RGB_Color_t.startTransition 0 0 0 0 0) pixel
  match display_color.get? pixel with
  | some c =>
      { l with display_color := display_color,
               rgbw_leds := l.rgbw_leds.setPixel pixel c.rendered }
  | none => { l with display_color := display_color }

/-- Function `hardware_init()`: lowest level hardware init. -/
def hardware_init (w : World) (b : Board) : Board :=
  let b1 : Board := { b with trace := b.trace ++ [HwEvent.board_hardware_init] }
  let l1 : LEDs := { b1.leds with last_see_machine_state := w.machine_state }
  let l2 : LEDs := (List.range l1.rgbw_leds.count).foldl hardware_init_pixel l1
  rgbw_leds_update { b1 with leds := l2 }

/-- Function `hardware_periodic()`: callback from the controller loop. -/
def hardware_periodic (w : World) (b : Board) : Board × stat_t :=
  if !w.phat_city_time then (b, STAT_OK)
  else
    let b1 := rgbw_leds_update b
    let b2 : Board := { b1 with trace := b1.trace ++ [HwEvent.output_manage_monostable] }
    (b2, STAT_OK)

/-- Successive calls of `hardware_periodic()`, one per entry of `ws`. -/
def hardware_periodic_calls (ws : List World) (b : Board) : Board :=
  ws.foldl (fun acc w => (hardware_periodic w acc).1) b

/-- The `neopixel_update` frames of a trace, in order. -/
def frames : List HwEvent → List (List Color)
  | [] => []
  | HwEvent.neopixel_update f :: t => f :: frames t
  | _ :: t => frames t

/-! ## Reset entry points -/

/-- Function `hw_hard_reset()`: `Motate::System::reset(false)`. -/
def hw_hard_reset (b : Board) : Board :=
  { b with trace := b.trace ++ [HwEvent.system_reset false] }

/-- Function `hw_flash_loader()`: `Motate::System::reset(true)`. -/
def hw_flash_loader (b : Board) : Board :=
  { b with trace := b.trace ++ [HwEvent.system_reset true] }

/-- Function `hw_flash(nv)`: calls `hw_flash_loader()` and returns `STAT_OK`; `nv` is
handed back as the function leaves it. -/
def hw_flash (nv : nvObj_t) (b : Board) : Board × nvObj_t × stat_t :=
  (hw_flash_loader b, nv, STAT_OK)

/-! ## Device ID -/

/-- Function `Motate::strlen`: the number of bytes before the first NUL of the memory
starting at the pointer. -/
def strlen (s : List Nat) : Nat := (s.takeWhile (fun c => c != 0)).length

/-- Function `Motate::strncpy(dst, src, n)`: copies the bytes of `src` before its NUL, at
most `n` of them, and fills up to `n` bytes with NUL; exactly `n` bytes of `dst` are
written. Writing past the end of `dst` has no defined result: `none`. -/
def strncpy (dst src : List Nat) (n : Nat) : Option (List Nat) :=
  let body := (src.takeWhile (fun c => c != 0)).take n
  let written := body ++ List.replicate (n - body.length) 0
  if n ≤ dst.length then some (written ++ dst.drop n) else none

/-- Function `_get_id(id)`: `strncpy(p, uuid, strlen(uuid))` with `uuid = Motate::UUID`.
The argument `id` is the content of the caller's buffer before the call, the result its
content afterwards. -/
def _get_id (UUID : List Nat) (id : List Nat) : Option (List Nat) :=
  let p := id
  let uuid := UUID
  strncpy p uuid (strlen uuid)

/-- The string a C reader finds in a buffer: the bytes before the first NUL, or `none`
when the buffer holds no NUL (the read runs past its end). -/
def c_string (buf : List Nat) : Option (List Nat) :=
  if 0 ∈ buf then some (buf.takeWhile (fun c => c != 0)) else none

/-- Function `hw_get_id(nv)`, up to the call of `nv_copy_string`: `tmp` is the content
of the local `char tmp[SYS_ID_LEN]` at entry (not initialised by the function); the
result is `nv` with `valuetype = TYPE_STRING` and the string read from `tmp`. -/
def hw_get_id (UUID : List Nat) (tmp : List Nat) (nv : nvObj_t) :
    Option (nvObj_t × List Nat) :=
  match _get_id UUID tmp with
  | none => none
  | some tmp1 =>
    match c_string tmp1 with
    | none => none
    | some str => some ({ nv with valuetype := valueType.TYPE_STRING }, str)

/-! ## LED get / set -/

/-- Modelled from the spec: the macro `fp_EQ` is defined in `util.h`, which is not among
the sources; it is the epsilon-based float-equal test, `|a - b| < eps`, with the
tolerance `eps` (the macro `EPSILON`) taken as a parameter. -/
def fp_EQ (eps a b : ℚ) : Bool := decide (|a - b| < eps)

/-- Function `_get_leds(nv)`: classify the rendered colour of `display_color[0]`. The
result is `nv` after the call and the returned status. -/
def _get_leds (eps : ℚ) (l : LEDs) (nv : nvObj_t) : nvObj_t × stat_t :=
  let nv1 : nvObj_t := { nv with valuetype := valueType.TYPE_INT }
  match (l.display_color.headD display_color_declared).getRGB with
  | (red, green, blue) =>
    -- black
    if fp_EQ eps red 0 && fp_EQ eps green 0 && fp_EQ eps blue 0 then
      ({ nv1 with value := 0 }, STAT_OK)
    -- white
    else if fp_EQ eps red 1 && fp_EQ eps green 1 && fp_EQ eps blue 1 then
      ({ nv1 with value := 1 }, STAT_OK)
    -- red
    else if fp_EQ eps red 1 && fp_EQ eps green 0 && fp_EQ eps blue 0 then
      ({ nv1 with value := 2 }, STAT_OK)
    -- green
    else if fp_EQ eps red 0 && fp_EQ eps green 1 && fp_EQ eps blue 0 then
      ({ nv1 with value := 3 }, STAT_OK)
    -- blue
    else if fp_EQ eps red 0 && fp_EQ eps green 0 && fp_EQ eps blue 1 then
      ({ nv1 with value := 4 }, STAT_OK)
    -- orange
    else if fp_EQ eps red 1 && fp_EQ eps green (1 / 2) && fp_EQ eps blue 0 then
      ({ nv1 with value := 5 }, STAT_OK)
    -- yellow
    else if fp_EQ eps red 1 && fp_EQ eps green 1 && fp_EQ eps blue 0 then
      ({ nv1 with value := 6 }, STAT_OK)
    else (nv1, STAT_OK)

/-- The conversion `uint32_t value = nv->value`: truncation of a non-negative value,
reduced to 32 bits. -/
def to_uint32 (q : ℚ) : Nat := q.floor.toNat % 2 ^ 32

/-- Modelled from the spec: the three-channel form `setPixel(index, red, green, blue)` of
`neopixel.h` (not among the sources) writes the three channels as given into the buffer
at `index`, with the white channel zero; an out-of-range index is ignored. -/
def NeoPixel.setPixelRGB (index : Nat) (red green blue : Nat) (np : NeoPixel) : NeoPixel :=
  np.setPixel index ⟨red, green, blue, 0⟩

/-- Function `_set_leds(nv)`: unpack `nv->value` and write it to pixel 0, once per pixel
of the strip. -/
def _set_leds (l : LEDs) (nv : nvObj_t) : LEDs × stat_t :=
  let value : Nat := to_uint32 nv.value
  let red : Nat := value &&& 0xFF
  let green : Nat := (value >>> 8) &&& 0xFF
  let blue : Nat := value >>> 16
  let rgbw_leds := (List.range l.rgbw_leds.count).foldl
    (fun np _pixel => np.setPixelRGB 0 red green blue) l.rgbw_leds
  ({ l with rgbw_leds := rgbw_leds }, STAT_OK)

/-- A call made on the board after `hardware_init()`. -/
inductive Call where
  | hardware_periodic (w : World)
  | _get_leds (nv : nvObj_t)
  | _set_leds (nv : nvObj_t)
  deriving DecidableEq

/-- The board after one call; `_get_leds` only reads the LED globals and writes `nv`. -/
def Call.run (b : Board) : Call → Board
  | Call.hardware_periodic w => (G2.hardware_periodic w b).1
  | Call._get_leds _ => b
  | Call._set_leds nv => { b with leds := (G2._set_leds b.leds nv).1 }

/-- The board after a sequence of calls. -/
def run_calls (cs : List Call) (b : Board) : Board :=
  cs.foldl Call.run b

/-! ## Digital inputs of the tm240 profile (`settings_tm240.h`) -/

/-- Input modes; `IO_ACTIVE_LOW` is also written `NORMALLY_OPEN`, `IO_ACTIVE_HIGH`
`NORMALLY_CLOSED`. -/
inductive ioMode where
  | IO_MODE_DISABLED
  | IO_ACTIVE_LOW
  | IO_ACTIVE_HIGH
  deriving DecidableEq, Repr

/-- Alias `NORMALLY_OPEN` of `IO_ACTIVE_LOW`. -/
abbrev NORMALLY_OPEN : ioMode := ioMode.IO_ACTIVE_LOW

/-- Alias `NORMALLY_CLOSED` of `IO_ACTIVE_HIGH`. -/
abbrev NORMALLY_CLOSED : ioMode := ioMode.IO_ACTIVE_HIGH

/-- Input actions. -/
inductive inputAction where
  | INPUT_ACTION_NONE
  | INPUT_ACTION_STOP
  | INPUT_ACTION_FAST_STOP
  | INPUT_ACTION_HALT
  | INPUT_ACTION_RESET
  deriving DecidableEq, Repr

/-- Input functions. -/
inductive inputFunction where
  | INPUT_FUNCTION_NONE
  | INPUT_FUNCTION_LIMIT
  | INPUT_FUNCTION_INTERLOCK
  | INPUT_FUNCTION_SHUTDOWN
  | INPUT_FUNCTION_PANIC
  deriving DecidableEq, Repr

open ioMode inputAction inputFunction

def DI1_MODE : ioMode := NORMALLY_CLOSED
def DI1_ACTION : inputAction := INPUT_ACTION_NONE
def DI1_FUNCTION : inputFunction := INPUT_FUNCTION_NONE

def DI2_MODE : ioMode := NORMALLY_CLOSED
def DI2_ACTION : inputAction := INPUT_ACTION_NONE
def DI2_FUNCTION : inputFunction := INPUT_FUNCTION_NONE

def DI3_MODE : ioMode := NORMALLY_OPEN
def DI3_ACTION : inputAction := INPUT_ACTION_NONE
def DI3_FUNCTION : inputFunction := INPUT_FUNCTION_NONE

def DI4_MODE : ioMode := NORMALLY_OPEN
def DI4_ACTION : inputAction := INPUT_ACTION_FAST_STOP
def DI4_FUNCTION : inputFunction := INPUT_FUNCTION_LIMIT

def DI5_MODE : ioMode := NORMALLY_OPEN
def DI5_ACTION : inputAction := INPUT_ACTION_FAST_STOP
def DI5_FUNCTION : inputFunction := INPUT_FUNCTION_LIMIT

def DI6_MODE : ioMode := IO_MODE_DISABLED
def DI6_ACTION : inputAction := INPUT_ACTION_NONE
def DI6_FUNCTION : inputFunction := INPUT_FUNCTION_NONE

def DI7_MODE : ioMode := IO_MODE_DISABLED
def DI7_ACTION : inputAction := INPUT_ACTION_NONE
def DI7_FUNCTION : inputFunction := INPUT_FUNCTION_NONE

def DI8_MODE : ioMode := IO_MODE_DISABLED
def DI8_ACTION : inputAction := INPUT_ACTION_NONE
def DI8_FUNCTION : inputFunction := INPUT_FUNCTION_NONE

def DI9_MODE : ioMode := IO_MODE_DISABLED
def DI9_ACTION : inputAction := INPUT_ACTION_NONE
def DI9_FUNCTION : inputFunction := INPUT_FUNCTION_NONE

/-- A digital input descriptor: the triple (mode, action, function). -/
structure DigitalInput where
  mode : ioMode
  action : inputAction
  function : inputFunction
  deriving DecidableEq, Repr

/-- The digital-input table of the profile: the descriptor of input `DIn`, `n` in 1..9. -/
def digital_input : Nat → Option DigitalInput
  | 1 => some ⟨DI1_MODE, DI1_ACTION, DI1_FUNCTION⟩
  | 2 => some ⟨DI2_MODE, DI2_ACTION, DI2_FUNCTION⟩
  | 3 => some ⟨DI3_MODE, DI3_ACTION, DI3_FUNCTION⟩
  | 4 => some ⟨DI4_MODE, DI4_ACTION, DI4_FUNCTION⟩
  | 5 => some ⟨DI5_MODE, DI5_ACTION, DI5_FUNCTION⟩
  | 6 => some ⟨DI6_MODE, DI6_ACTION, DI6_FUNCTION⟩
  | 7 => some ⟨DI7_MODE, DI7_ACTION, DI7_FUNCTION⟩
  | 8 => some ⟨DI8_MODE, DI8_ACTION, DI8_FUNCTION⟩
  | 9 => some ⟨DI9_MODE, DI9_ACTION, DI9_FUNCTION⟩
  | _ => none

/-! ## Axis homing inputs of the tm240 profile (`settings_tm240.h`) -/

/-- The six axes of the profile. -/
inductive Axis where
  | X
  | Y
  | Z
  | A
  | B
  | C
  deriving DecidableEq, Repr

/-- Setting `X_HOMING_INPUT`: input used for homing or 0 to disable. -/
def X_HOMING_INPUT : Nat := 4
def Y_HOMING_INPUT : Nat := 5
def Z_HOMING_INPUT : Nat := 0
def A_HOMING_INPUT : Nat := 0
def B_HOMING_INPUT : Nat := 0
def C_HOMING_INPUT : Nat := 0

/-- The homing input configured for an axis. -/
def homing_input : Axis → Nat
  | Axis.X => X_HOMING_INPUT
  | Axis.Y => Y_HOMING_INPUT
  | Axis.Z => Z_HOMING_INPUT
  | Axis.A => A_HOMING_INPUT
  | Axis.B => B_HOMING_INPUT
  | Axis.C => C_HOMING_INPUT

/-! ## Predicates used to state the properties -/

/-- The hardware calls a step appended: the trace after, without the trace before. -/
def new_events (before after : Board) : List HwEvent :=
  after.trace.drop before.trace.length

/-- Every transition that was active in `old` has a later elapsed time in `new`. -/
def transitions_advanced (old new : List RGB_Color_t) : Bool :=
  old.length == new.length &&
    (old.zip new).all (fun p => !p.1.active || decide (p.1.elapsed < p.2.elapsed))

/-- Every channel of the colour is a normalized intensity in `[0, 1]`. -/
def Color.normalized (c : Color) : Prop :=
  (0 ≤ c.red ∧ c.red ≤ 1) ∧ (0 ≤ c.green ∧ c.green ≤ 1) ∧
  (0 ≤ c.blue ∧ c.blue ≤ 1) ∧ (0 ≤ c.white ∧ c.white ≤ 1)

instance (c : Color) : Decidable c.normalized := by
  unfold Color.normalized
  infer_instance

/-- The colour black, all channels zero. -/
def black : Color := ⟨0, 0, 0, 0⟩

/-- The device ID string `0123-4567-89ab-cdef` as bytes: a 19-character `Motate::UUID`. -/
def uuid19 : List Nat :=
  [48, 49, 50, 51, 45, 52, 53, 54, 55, 45, 56, 57, 97, 98, 45, 99, 100, 101, 102]

/-- The seven named colours of `_get_leds`, in the order of its branches, each with the
value it reports: black, white, red, green, blue, orange, yellow. -/
def led_colours : List ((ℚ × ℚ × ℚ) × ℚ) :=
  [((0, 0, 0), 0), ((1, 1, 1), 1), ((1, 0, 0), 2), ((0, 1, 0), 3), ((0, 0, 1), 4),
   ((1, 1 / 2, 0), 5), ((1, 1, 0), 6)]

/-- The colour `(red, green, blue)` is within `eps`, per channel, of the named colour. -/
def colour_matches (eps red green blue : ℚ) (named : ℚ × ℚ × ℚ) : Bool :=
  fp_EQ eps red named.1 && fp_EQ eps green named.2.1 && fp_EQ eps blue named.2.2

/-- The value of the first branch, in the given order, whose colour matches. -/
def first_match (eps red green blue : ℚ) : List ((ℚ × ℚ × ℚ) × ℚ) → Option ℚ
  | [] => none
  | e :: rest =>
    if colour_matches eps red green blue e.1 then some e.2
    else first_match eps red green blue rest

/-- The LED globals with `display_color[0]` holding orange `(1, 0.5, 0, 0)`. -/
def leds_orange : LEDs :=
  { LEDs.declared cmMachineState.IDLE with
    display_color := [RGB_Color_t.ofChannels 1 (1 / 2) 0 0] }

/-- A board with a two-pixel strip lit white and red, `display_color` holding the
declared colour and a half-finished transition to white. -/
def board_lit : Board :=
  { leds := { rgbw_leds := { count := 2, pixels := [⟨1, 1, 1, 1⟩, ⟨1, 0, 0, 0⟩] },
              display_color := [display_color_declared,
                                { start := ⟨0, 0, 0, 0⟩, target := ⟨1, 1, 1, 1⟩,
                                  duration := 10, elapsed := 5 }],
              alarm_red := false,
              shutdown_white := false,
              last_see_machine_state := cmMachineState.RUNNING },
    trace := [HwEvent.output_manage_monostable] }

/-! # Theorems -/

/-! ## Auxiliary lemmas -/

theorem hardware_periodic_skip (w : World) (b : Board) (hw : w.phat_city_time = false) :
    hardware_periodic w b = (b, STAT_OK) := by
  simp [hardware_periodic, hw]

theorem hardware_periodic_push (w : World) (b : Board) (hw : w.phat_city_time = true) :
    hardware_periodic w b =
      ({ leds := b.leds,
         trace := b.trace ++ [HwEvent.neopixel_update b.leds.rgbw_leds.pixels,
                              HwEvent.output_manage_monostable] }, STAT_OK) := by
  simp [hardware_periodic, hw, rgbw_leds_update]

theorem hardware_periodic_leds (w : World) (b : Board) :
    (hardware_periodic w b).1.leds = b.leds := by
  cases hw : w.phat_city_time
  · rw [hardware_periodic_skip w b hw]
  · rw [hardware_periodic_push w b hw]

theorem set_leds_keeps (l : LEDs) (nv : nvObj_t) :
    (_set_leds l nv).1.display_color = l.display_color ∧
    (_set_leds l nv).1.alarm_red = l.alarm_red ∧
    (_set_leds l nv).1.shutdown_white = l.shutdown_white ∧
    (_set_leds l nv).1.last_see_machine_state = l.last_see_machine_state := by
  simp [_set_leds]

theorem hardware_init_pixel_state (l : LEDs) (pixel : Nat) :
    (hardware_init_pixel l pixel).last_see_machine_state = l.last_see_machine_state := by
  unfold hardware_init_pixel
  dsimp only
  split <;> rfl

theorem hardware_init_loop_state (ps : List Nat) (l : LEDs) :
    (ps.foldl hardware_init_pixel l).last_see_machine_state = l.last_see_machine_state := by
  induction ps generalizing l with
  | nil => rfl
  | cons p ps ih => rw [List.foldl_cons, ih, hardware_init_pixel_state]

theorem hardware_init_state (w : World) (b : Board) :
    (hardware_init w b).leds.last_see_machine_state = w.machine_state := by
  simp [hardware_init, rgbw_leds_update, hardware_init_loop_state]

theorem hardware_init_power_up (w : World) (m : cmMachineState) :
    hardware_init w (Board.power_up m) =
      { leds := { rgbw_leds := { count := 1, pixels := [black] },
                  display_color := [{ start := ⟨1 / 10, 0, 0, 5⟩, target := black,
                                      duration := 0, elapsed := 0 }],
                  alarm_red := false,
                  shutdown_white := false,
                  last_see_machine_state := w.machine_state },
        trace := [HwEvent.board_hardware_init, HwEvent.neopixel_update [black]] } := by
  simp [hardware_init, Board.power_up, LEDs.declared, hardware_init_pixel, rgbw_leds_update,
    List.range, List.range.loop, display_color_declared, RGB_Color_t.startTransition,
    RGB_Color_t.ofChannels, RGB_Color_t.rendered, RGB_Color_t.active, Color.clamp, clamp01,
    NeoPixel.setPixel, List.modify, black]

/-! ## C1: no slack, no effect -/

/-- C1: a call of `hardware_periodic()` made while `mp_is_phat_city_time()` is false
appends nothing to the hardware trace (no `update`, no `output_manage_monostable`),
leaves `display_color`, `alarm_red`, `shutdown_white`, `last_see_machine_state` and the
whole board unchanged and returns `STAT_OK`; any number of such calls equals none. -/
theorem hardware_periodic_no_slack (w : World) (b : Board) (ws : List World)
    (hw : w.phat_city_time = false) (hws : ∀ v ∈ ws, v.phat_city_time = false) :
    new_events b (hardware_periodic w b).1 = [] ∧
    (hardware_periodic w b).1.trace = b.trace ∧
    (hardware_periodic w b).1.leds.rgbw_leds = b.leds.rgbw_leds ∧
    (hardware_periodic w b).1.leds.display_color = b.leds.display_color ∧
    (hardware_periodic w b).1.leds.alarm_red = b.leds.alarm_red ∧
    (hardware_periodic w b).1.leds.shutdown_white = b.leds.shutdown_white ∧
    (hardware_periodic w b).1.leds.last_see_machine_state = b.leds.last_see_machine_state ∧
    (hardware_periodic w b).2 = STAT_OK ∧
    hardware_periodic_calls ws b = hardware_periodic_calls [] b := by
  rw [hardware_periodic_skip w b hw]
  refine ⟨by simp [new_events], rfl, rfl, rfl, rfl, rfl, rfl, rfl, ?_⟩
  induction ws with
  | nil => rfl
  | cons v vs ih =>
    have hv : v.phat_city_time = false := hws v (List.mem_cons_self _ _)
    have hrest : ∀ u ∈ vs, u.phat_city_time = false :=
      fun u hu => hws u (List.mem_cons_of_mem _ hu)
    have hstep : hardware_periodic_calls (v :: vs) b = hardware_periodic_calls vs b := by
      simp only [hardware_periodic_calls, List.foldl_cons, hardware_periodic_skip v b hv]
    rw [hstep]
    exact ih hrest

/-- Witness of C1: three calls without slack on the board `hardware_init` leaves. -/
theorem hardware_periodic_no_slack_witness :
    new_events (hardware_init ⟨cmMachineState.ALARM, true⟩ (Board.power_up cmMachineState.IDLE))
      (hardware_periodic ⟨cmMachineState.ALARM, false⟩
        (hardware_init ⟨cmMachineState.ALARM, true⟩ (Board.power_up cmMachineState.IDLE))).1
      = [] ∧
    hardware_periodic_calls
        [⟨cmMachineState.ALARM, false⟩, ⟨cmMachineState.IDLE, false⟩,
         ⟨cmMachineState.SHUTDOWN, false⟩]
        (hardware_init ⟨cmMachineState.ALARM, true⟩ (Board.power_up cmMachineState.IDLE))
      = hardware_periodic_calls []
        (hardware_init ⟨cmMachineState.ALARM, true⟩ (Board.power_up cmMachineState.IDLE)) :=
  have h := hardware_periodic_no_slack ⟨cmMachineState.ALARM, false⟩
    (hardware_init ⟨cmMachineState.ALARM, true⟩ (Board.power_up cmMachineState.IDLE))
    [⟨cmMachineState.ALARM, false⟩, ⟨cmMachineState.IDLE, false⟩,
     ⟨cmMachineState.SHUTDOWN, false⟩] rfl (by decide)
  ⟨h.1, h.2.2.2.2.2.2.2.2⟩

/-! ## C2: a call with slack pushes the buffer as it is -/

/-- C2, as stated, fails. (a) On the board reached by `hardware_init()` and then
`_set_leds` with value 255, a call with slack hands `update()` a buffer whose pixel 0 is
`(255, 0, 0, 0)`, while the rendered `display_color[0]` is black. (b) On a board whose
`display_color[0]` is half-way through a transition, a call with slack leaves the
transition where it was: it is not advanced. -/
theorem hardware_periodic_slack_counterexample :
    (new_events
        (run_calls [Call._set_leds ⟨255, valueType.TYPE_INT⟩]
          (hardware_init ⟨cmMachineState.IDLE, true⟩ (Board.power_up cmMachineState.IDLE)))
        (hardware_periodic ⟨cmMachineState.IDLE, true⟩
          (run_calls [Call._set_leds ⟨255, valueType.TYPE_INT⟩]
            (hardware_init ⟨cmMachineState.IDLE, true⟩
              (Board.power_up cmMachineState.IDLE)))).1
      = [HwEvent.neopixel_update [⟨255, 0, 0, 0⟩], HwEvent.output_manage_monostable] ∧
     (hardware_periodic ⟨cmMachineState.IDLE, true⟩
          (run_calls [Call._set_leds ⟨255, valueType.TYPE_INT⟩]
            (hardware_init ⟨cmMachineState.IDLE, true⟩
              (Board.power_up cmMachineState.IDLE)))).1.leds.display_color.map
        RGB_Color_t.rendered = [black]) ∧
    (transitions_advanced
        [{ start := black, target := ⟨1, 0, 0, 0⟩, duration := 10, elapsed := 5 }]
        (hardware_periodic ⟨cmMachineState.IDLE, true⟩
          { leds := { rgbw_leds := { count := 1, pixels := [black] },
                      display_color := [{ start := black, target := ⟨1, 0, 0, 0⟩,
                                          duration := 10, elapsed := 5 }],
                      alarm_red := false, shutdown_white := false,
                      last_see_machine_state := cmMachineState.IDLE },
            trace := [] }).1.leds.display_color = false) := by
  decide

/-- C2, amended: a call of `hardware_periodic()` made with slack hands the pixel buffer
of `rgbw_leds`, as it stands, to `update()` exactly once, then calls
`output_manage_monostable()` once; no transition of `display_color` is advanced and no
LED global changes; it returns `STAT_OK`. -/
theorem hardware_periodic_slack (w : World) (b : Board) (hw : w.phat_city_time = true) :
    new_events b (hardware_periodic w b).1 =
      [HwEvent.neopixel_update b.leds.rgbw_leds.pixels, HwEvent.output_manage_monostable] ∧
    (hardware_periodic w b).1.trace =
      b.trace ++ [HwEvent.neopixel_update b.leds.rgbw_leds.pixels,
                  HwEvent.output_manage_monostable] ∧
    (hardware_periodic w b).1.leds.display_color = b.leds.display_color ∧
    (hardware_periodic w b).1.leds = b.leds ∧
    (hardware_periodic w b).2 = STAT_OK := by
  rw [hardware_periodic_push w b hw]
  simp [new_events]

/-- Witness of the amended C2: a call with slack on the board `hardware_init` leaves. -/
theorem hardware_periodic_slack_witness :
    new_events (hardware_init ⟨cmMachineState.IDLE, true⟩ (Board.power_up cmMachineState.IDLE))
      (hardware_periodic ⟨cmMachineState.ALARM, true⟩
        (hardware_init ⟨cmMachineState.IDLE, true⟩ (Board.power_up cmMachineState.IDLE))).1
      = [HwEvent.neopixel_update
          (hardware_init ⟨cmMachineState.IDLE, true⟩
            (Board.power_up cmMachineState.IDLE)).leds.rgbw_leds.pixels,
         HwEvent.output_manage_monostable] :=
  (hardware_periodic_slack ⟨cmMachineState.ALARM, true⟩
    (hardware_init ⟨cmMachineState.IDLE, true⟩ (Board.power_up cmMachineState.IDLE)) rfl).1

/-! ## C3: the strip after `hardware_init()` -/

/-- C3, as stated, fails: after `hardware_init()` pixel 0 of the strip is black, not the
colour `(0.1, 0, 0, 5)` that `display_color` is declared with. -/
theorem hardware_init_idle_colour_counterexample :
    (hardware_init ⟨cmMachineState.IDLE, true⟩
        (Board.power_up cmMachineState.IDLE)).leds.rgbw_leds.pixels
      ≠ [display_color_declared.rendered] ∧
    display_color_declared.rendered = ⟨1 / 10, 0, 0, 5⟩ ∧
    (hardware_init ⟨cmMachineState.IDLE, true⟩
        (Board.power_up cmMachineState.IDLE)).leds.rgbw_leds.pixels = [⟨0, 0, 0, 0⟩] := by
  rw [hardware_init_power_up]
  norm_num [display_color_declared, RGB_Color_t.ofChannels, RGB_Color_t.rendered,
    RGB_Color_t.active, black]

theorem startTransition_zero (c : RGB_Color_t) :
    (RGB_Color_t.startTransition 0 0 0 0 0 c).duration = 0 ∧
    (RGB_Color_t.startTransition 0 0 0 0 0 c).active = false ∧
    (RGB_Color_t.startTransition 0 0 0 0 0 c).target = black ∧
    (RGB_Color_t.startTransition 0 0 0 0 0 c).rendered = black := by
  simp [RGB_Color_t.startTransition, RGB_Color_t.active, RGB_Color_t.rendered, Color.clamp,
    clamp01, black]

theorem hardware_init_pixel_eq (l : LEDs) (k : Nat) (hk : k < l.display_color.length) :
    hardware_init_pixel l k =
      { l with display_color :=
                 l.display_color.modify (RGB_Color_t.startTransition 0 0 0 0 0) k,
               rgbw_leds := l.rgbw_leds.setPixel k black } := by
  have hget : (l.display_color.modify (RGB_Color_t.startTransition 0 0 0 0 0) k).get? k
      = some (RGB_Color_t.startTransition 0 0 0 0 0 (l.display_color.get ⟨k, hk⟩)) := by
    rw [List.get?_eq_getElem?, List.getElem?_modify_eq, List.getElem?_eq_getElem hk]
    rfl
  unfold hardware_init_pixel
  simp only [hget, (startTransition_zero _).2.2.2]

theorem hardware_init_loop (l : LEDs) (k : Nat) (hk : k ≤ l.display_color.length) :
    ((List.range k).foldl hardware_init_pixel l).rgbw_leds.count = l.rgbw_leds.count ∧
    ((List.range k).foldl hardware_init_pixel l).rgbw_leds.pixels.length
      = l.rgbw_leds.pixels.length ∧
    ((List.range k).foldl hardware_init_pixel l).display_color.length
      = l.display_color.length ∧
    (∀ i, i < k → ∀ px, ((List.range k).foldl hardware_init_pixel l).rgbw_leds.pixels[i]?
      = some px → px = black) ∧
    (∀ i, i < k → ∀ c, ((List.range k).foldl hardware_init_pixel l).display_color[i]?
      = some c → ∃ c0, c = RGB_Color_t.startTransition 0 0 0 0 0 c0) := by
  induction k with
  | zero =>
    refine ⟨rfl, rfl, rfl, ?_, ?_⟩ <;> intro i hi <;> exact absurd hi (Nat.not_lt_zero i)
  | succ k ih =>
    obtain ⟨hcount, hpx, hdc, hblack, hstart⟩ := ih (Nat.le_of_succ_le hk)
    have hlt : k < ((List.range k).foldl hardware_init_pixel l).display_color.length := by
      rw [hdc]; exact hk
    rw [List.range_succ, List.foldl_append, List.foldl_cons, List.foldl_nil,
      hardware_init_pixel_eq _ k hlt]
    refine ⟨hcount, ?_, ?_, ?_, ?_⟩
    · simp [NeoPixel.setPixel, hpx]
    · simp [hdc]
    · intro i hi px hpxi
      simp only [NeoPixel.setPixel, List.getElem?_set] at hpxi
      by_cases hki : k = i
      · rw [if_pos hki] at hpxi
        split at hpxi
        · exact (Option.some.inj hpxi).symm
        · cases hpxi
      · rw [if_neg hki] at hpxi
        exact hblack i (by omega) px hpxi
    · intro i hi c hci
      by_cases hki : k = i
      · subst hki
        rw [List.getElem?_modify_eq, List.getElem?_eq_getElem hlt] at hci
        exact ⟨_, (Option.some.inj hci).symm⟩
      · rw [List.getElem?_modify_ne _ _ hki] at hci
        exact hstart i (by omega) c hci

theorem hardware_init_events (w : World) (b : Board) :
    new_events b (hardware_init w b) =
      [HwEvent.board_hardware_init,
       HwEvent.neopixel_update (hardware_init w b).leds.rgbw_leds.pixels] := by
  simp [new_events, hardware_init, rgbw_leds_update]

/-- C3, amended: after `hardware_init()`, whatever the strip and `display_color` held
before, every pixel of the LED strip has been set, by a zero-duration (immediate)
transition, to black `(0, 0, 0, 0)`, the target the four zero arguments of
`startTransition` give, and that buffer has been pushed to the hardware exactly once,
after it was set. -/
theorem hardware_init_strip (w : World) (b : Board)
    (hpixels : b.leds.rgbw_leds.pixels.length = b.leds.rgbw_leds.count)
    (hcolors : b.leds.display_color.length = b.leds.rgbw_leds.count) :
    (hardware_init w b).leds.rgbw_leds.pixels = List.replicate b.leds.rgbw_leds.count black ∧
    (∀ px ∈ (hardware_init w b).leds.rgbw_leds.pixels, px = black) ∧
    (hardware_init w b).leds.rgbw_leds.pixels.length = (hardware_init w b).leds.rgbw_leds.count ∧
    (hardware_init w b).leds.display_color.length = b.leds.display_color.length ∧
    (∀ c ∈ (hardware_init w b).leds.display_color,
      c.duration = 0 ∧ c.active = false ∧ c.target = black ∧ c.rendered = black) ∧
    new_events b (hardware_init w b) =
      [HwEvent.board_hardware_init,
       HwEvent.neopixel_update (List.replicate b.leds.rgbw_leds.count black)] ∧
    frames (new_events b (hardware_init w b)) =
      [(hardware_init w b).leds.rgbw_leds.pixels] := by
  have hloop := hardware_init_loop { b.leds with last_see_machine_state := w.machine_state }
    b.leds.rgbw_leds.count (le_of_eq hcolors.symm)
  have hleds : (hardware_init w b).leds =
      (List.range b.leds.rgbw_leds.count).foldl hardware_init_pixel
        { b.leds with last_see_machine_state := w.machine_state } := by
    simp [hardware_init, rgbw_leds_update]
  obtain ⟨hcount, hpx, hdc, hblack, hstart⟩ := hloop
  rw [← hleds] at hcount hpx hdc hblack hstart
  simp only at hcount hpx hdc
  have hall : ∀ px ∈ (hardware_init w b).leds.rgbw_leds.pixels, px = black := by
    intro px hmem
    obtain ⟨i, hi, hget⟩ := List.getElem_of_mem hmem
    have hic : i < b.leds.rgbw_leds.count := by rw [← hpixels, ← hpx]; exact hi
    exact hblack i hic px (by rw [List.getElem?_eq_getElem hi, hget])
  have hrep : (hardware_init w b).leds.rgbw_leds.pixels
      = List.replicate b.leds.rgbw_leds.count black := by
    rw [List.eq_replicate_iff]
    exact ⟨by rw [hpx, hpixels], hall⟩
  refine ⟨hrep, hall, by rw [hpx, hpixels, hcount], hdc, ?_, ?_, ?_⟩
  · intro c hmem
    obtain ⟨i, hi, hget⟩ := List.getElem_of_mem hmem
    have hic : i < b.leds.rgbw_leds.count := by rw [← hcolors, ← hdc]; exact hi
    obtain ⟨c0, hc0⟩ := hstart i hic c (by rw [List.getElem?_eq_getElem hi, hget])
    rw [hc0]
    exact startTransition_zero c0
  · rw [hardware_init_events, hrep]
  · rw [hardware_init_events]
    rfl

/-- Witness of the amended C3: a two-pixel strip lit white and red, with one transition
half finished, is black after `hardware_init()`, and the black buffer is what is pushed. -/
theorem hardware_init_strip_witness :
    board_lit.leds.rgbw_leds.pixels = [⟨1, 1, 1, 1⟩, ⟨1, 0, 0, 0⟩] ∧
    (hardware_init ⟨cmMachineState.IDLE, true⟩ board_lit).leds.rgbw_leds.pixels
      = [black, black] ∧
    new_events board_lit (hardware_init ⟨cmMachineState.IDLE, true⟩ board_lit) =
      [HwEvent.board_hardware_init, HwEvent.neopixel_update [black, black]] :=
  have h := hardware_init_strip ⟨cmMachineState.IDLE, true⟩ board_lit rfl rfl
  ⟨rfl, h.1, h.2.2.2.2.2.1⟩

/-! ## C4: the cached machine state -/

/-- C4: in every state reached from `hardware_init()` by any sequence of
`hardware_periodic()`, `_get_leds()` and `_set_leds()` calls, `last_see_machine_state`
equals the value `cm_get_machine_state()` returned during `hardware_init()`. -/
theorem last_see_machine_state_fixed (w : World) (b : Board) (cs : List Call) :
    (run_calls cs (hardware_init w b)).leds.last_see_machine_state = w.machine_state := by
  have keep : ∀ (ds : List Call) (c : Board),
      (run_calls ds c).leds.last_see_machine_state = c.leds.last_see_machine_state := by
    intro ds
    induction ds with
    | nil => intro c; rfl
    | cons d ds ih =>
      intro c
      have hd : (Call.run c d).leds.last_see_machine_state
          = c.leds.last_see_machine_state := by
        cases d with
        | hardware_periodic v => simp [Call.run, hardware_periodic_leds]
        | _get_leds nv => rfl
        | _set_leds nv => exact (set_leds_keeps c.leds nv).2.2.2
      calc (run_calls (d :: ds) c).leds.last_see_machine_state
          = (run_calls ds (Call.run c d)).leds.last_see_machine_state := rfl
        _ = (Call.run c d).leds.last_see_machine_state := ih _
        _ = c.leds.last_see_machine_state := hd
  rw [keep, hardware_init_state]

/-! ## C5: no pulse animation in `hardware_periodic()` -/

theorem hardware_periodic_calls_leds (ws : List World) (b : Board) :
    (hardware_periodic_calls ws b).leds = b.leds := by
  induction ws generalizing b with
  | nil => rfl
  | cons w ws ih =>
    calc (hardware_periodic_calls (w :: ws) b).leds
        = (hardware_periodic_calls ws (hardware_periodic w b).1).leds := rfl
      _ = (hardware_periodic w b).1.leds := ih _
      _ = b.leds := hardware_periodic_leds w b

theorem frames_append (xs ys : List HwEvent) : frames (xs ++ ys) = frames xs ++ frames ys := by
  induction xs with
  | nil => rfl
  | cons x xs ih => cases x <;> simp [frames, ih]

theorem hardware_periodic_frames (w : World) (b : Board) :
    frames (hardware_periodic w b).1.trace =
      frames b.trace ++ (if w.phat_city_time then [b.leds.rgbw_leds.pixels] else []) := by
  cases hw : w.phat_city_time
  · rw [hardware_periodic_skip w b hw]; simp
  · rw [hardware_periodic_push w b hw]; simp [frames_append, frames]

theorem hardware_periodic_calls_frames (ws : List World) (b : Board) :
    frames (hardware_periodic_calls ws b).trace =
      frames b.trace ++
        List.replicate (ws.filter (fun w => w.phat_city_time)).length b.leds.rgbw_leds.pixels := by
  induction ws generalizing b with
  | nil => simp [hardware_periodic_calls]
  | cons w ws ih =>
    have hstep : hardware_periodic_calls (w :: ws) b
        = hardware_periodic_calls ws (hardware_periodic w b).1 := rfl
    rw [hstep, ih, hardware_periodic_frames, hardware_periodic_leds]
    cases hw : w.phat_city_time
    · simp [hw]
    · simp [hw, List.replicate_succ]

/-- C5, as stated, fails: with the machine state ALARM, a call of `hardware_periodic()`
made with slack after `hardware_init()` does not toggle `alarm_red`, and the frames pushed
by two such calls are both black: no red-lit phase alternates with the dark one. The same
holds for SHUTDOWN and `shutdown_white`. -/
theorem pulse_counterexample :
    ((hardware_periodic ⟨cmMachineState.ALARM, true⟩
        (hardware_init ⟨cmMachineState.IDLE, true⟩
          (Board.power_up cmMachineState.IDLE))).1.leds.alarm_red
      ≠ !(hardware_init ⟨cmMachineState.IDLE, true⟩
          (Board.power_up cmMachineState.IDLE)).leds.alarm_red) ∧
    ((hardware_periodic ⟨cmMachineState.SHUTDOWN, true⟩
        (hardware_init ⟨cmMachineState.IDLE, true⟩
          (Board.power_up cmMachineState.IDLE))).1.leds.shutdown_white
      ≠ !(hardware_init ⟨cmMachineState.IDLE, true⟩
          (Board.power_up cmMachineState.IDLE)).leds.shutdown_white) ∧
    frames (new_events
        (hardware_init ⟨cmMachineState.IDLE, true⟩ (Board.power_up cmMachineState.IDLE))
        (hardware_periodic_calls [⟨cmMachineState.ALARM, true⟩, ⟨cmMachineState.ALARM, true⟩]
          (hardware_init ⟨cmMachineState.IDLE, true⟩ (Board.power_up cmMachineState.IDLE))))
      = [[black], [black]] := by
  decide

/-- C5, amended: `hardware_periodic()` does not read the machine state. Whatever the
machine state at each call (ALARM and SHUTDOWN included), after `hardware_init()` any
sequence of `hardware_periodic()` calls leaves `alarm_red` and `shutdown_white` false and
the display colour black, and every frame pushed (one by `hardware_init()`, one per call
made with slack) is the black strip: the colour is never other than black, so never other
than red or black, and no alternation takes place. -/
theorem no_pulse (w : World) (m : cmMachineState) (ws : List World) :
    (hardware_periodic_calls ws (hardware_init w (Board.power_up m))).leds.alarm_red = false ∧
    (hardware_periodic_calls ws (hardware_init w (Board.power_up m))).leds.shutdown_white
      = false ∧
    (hardware_periodic_calls ws (hardware_init w (Board.power_up m))).leds.display_color.map
      RGB_Color_t.rendered = [black] ∧
    (hardware_periodic_calls ws (hardware_init w (Board.power_up m))).leds.rgbw_leds.pixels
      = [black] ∧
    frames (hardware_periodic_calls ws (hardware_init w (Board.power_up m))).trace =
      List.replicate (1 + (ws.filter (fun v => v.phat_city_time)).length) [black] := by
  rw [hardware_periodic_calls_frames, hardware_periodic_calls_leds, hardware_init_power_up]
  refine ⟨rfl, rfl, ?_, rfl, ?_⟩
  · simp [RGB_Color_t.rendered, RGB_Color_t.active]
  · simp [frames, List.replicate_add]

/-! ## C6: the reset entry points -/

/-- C6: `hw_hard_reset()` invokes the system reset exactly once with bootloader = false,
`hw_flash_loader()` exactly once with bootloader = true, and `hw_flash(nv)` invokes the
bootloader = true variant, leaves `nv` as it was and yields `STAT_OK`; none of them
makes any other hardware call or changes an LED global. -/
theorem reset_entry_points (b : Board) (nv : nvObj_t) :
    new_events b (hw_hard_reset b) = [HwEvent.system_reset false] ∧
    (hw_hard_reset b).trace = b.trace ++ [HwEvent.system_reset false] ∧
    (hw_hard_reset b).leds = b.leds ∧
    new_events b (hw_flash_loader b) = [HwEvent.system_reset true] ∧
    (hw_flash_loader b).trace = b.trace ++ [HwEvent.system_reset true] ∧
    (hw_flash_loader b).leds = b.leds ∧
    new_events b (hw_flash nv b).1 = [HwEvent.system_reset true] ∧
    (hw_flash nv b).1 = hw_flash_loader b ∧
    (hw_flash nv b).2.1 = nv ∧
    (hw_flash nv b).2.2 = STAT_OK := by
  simp [new_events, hw_hard_reset, hw_flash_loader, hw_flash]

/-! ## C7: the digital-input table -/

/-- C7: every input DI1..DI9 of the tm240 table has a descriptor, and for each of them a
mode of `IO_MODE_DISABLED` comes with action `INPUT_ACTION_NONE` and function
`INPUT_FUNCTION_NONE`; equivalently an input whose function is `INPUT_FUNCTION_LIMIT`, or
whose action is not `INPUT_ACTION_NONE`, has mode `NORMALLY_OPEN` or `NORMALLY_CLOSED`. -/
theorem digital_inputs_sensible (n : Nat) (h1 : 1 ≤ n) (h9 : n ≤ 9) :
    ∃ d : DigitalInput, digital_input n = some d ∧
      (d.mode = IO_MODE_DISABLED →
        d.action = INPUT_ACTION_NONE ∧ d.function = INPUT_FUNCTION_NONE) ∧
      (d.function = INPUT_FUNCTION_LIMIT ∨ d.action ≠ INPUT_ACTION_NONE →
        d.mode = NORMALLY_OPEN ∨ d.mode = NORMALLY_CLOSED) := by
  interval_cases n <;> exact ⟨_, rfl, by decide, by decide⟩

/-- Witness of C7: input DI4, the X limit switch. -/
theorem digital_inputs_sensible_witness :
    ∃ d : DigitalInput, digital_input 4 = some d ∧
      (d.mode = IO_MODE_DISABLED →
        d.action = INPUT_ACTION_NONE ∧ d.function = INPUT_FUNCTION_NONE) ∧
      (d.function = INPUT_FUNCTION_LIMIT ∨ d.action ≠ INPUT_ACTION_NONE →
        d.mode = NORMALLY_OPEN ∨ d.mode = NORMALLY_CLOSED) :=
  digital_inputs_sensible 4 (by decide) (by decide)

/-! ## C8: channel ranges -/

/-- C8, as stated, fails: the white channel `display_color[0]` is declared with is 5,
which is not in `[0, 1]`. -/
theorem declared_colour_counterexample :
    ¬ Color.normalized display_color_declared.rendered ∧
    display_color_declared.rendered.white = 5 ∧
    (∀ m : cmMachineState, ∃ c ∈ (LEDs.declared m).display_color,
      ¬ (0 ≤ c.rendered.white ∧ c.rendered.white ≤ 1)) := by
  norm_num [Color.normalized, display_color_declared, RGB_Color_t.ofChannels,
    RGB_Color_t.rendered, RGB_Color_t.active, LEDs.declared]

/-- C8, amended: of the four values `display_color[0]` is declared with, red (0.1), green
(0) and blue (0) lie in `[0, 1]` and white is 5; after `hardware_init()` every channel of
the rendered `display_color[0]` and of every pixel of the strip buffer lies in `[0, 1]`. -/
theorem channel_ranges (w : World) (m : cmMachineState) :
    (0 ≤ display_color_declared.rendered.red ∧ display_color_declared.rendered.red ≤ 1) ∧
    (0 ≤ display_color_declared.rendered.green ∧ display_color_declared.rendered.green ≤ 1) ∧
    (0 ≤ display_color_declared.rendered.blue ∧ display_color_declared.rendered.blue ≤ 1) ∧
    display_color_declared.rendered.white = 5 ∧
    (∀ c ∈ (hardware_init w (Board.power_up m)).leds.display_color,
      Color.normalized c.rendered) ∧
    (∀ px ∈ (hardware_init w (Board.power_up m)).leds.rgbw_leds.pixels,
      Color.normalized px) := by
  rw [hardware_init_power_up]
  norm_num [Color.normalized, display_color_declared, RGB_Color_t.ofChannels,
    RGB_Color_t.rendered, RGB_Color_t.active, black]

/-! ## C9: the device ID is copied whole -/

/-- C9, the code at a failing input: `_get_id` copies `strlen(uuid)` bytes, whatever the
ID length. With the 19-character UUID `0123-4567-89ab-cdef` and a 40-byte buffer holding
no NUL, 19 bytes are written (more than 16), no terminator is written, so the buffer
holds no terminated string and `hw_get_id` reads past its end; a 41-character UUID is
written past the end of the 40-byte buffer. -/
theorem get_id_copies_whole_uuid :
    (∀ UUID id : List Nat, _get_id UUID id =
      if strlen UUID ≤ id.length
      then some (UUID.takeWhile (fun c => c != 0) ++ id.drop (strlen UUID)) else none) ∧
    strlen uuid19 = 19 ∧
    16 < strlen uuid19 ∧
    _get_id uuid19 (List.replicate 40 170) = some (uuid19 ++ List.replicate 21 170) ∧
    c_string (uuid19 ++ List.replicate 21 170) = none ∧
    hw_get_id uuid19 (List.replicate 40 170) ⟨0, valueType.TYPE_NULL⟩ = none ∧
    _get_id (List.replicate 41 65) (List.replicate 40 170) = none := by
  refine ⟨?_, by decide, by decide, by decide, by decide, by decide, by decide⟩
  intro UUID id
  have hlen : (UUID.takeWhile (fun c => c != 0)).length = strlen UUID := rfl
  simp only [_get_id, strncpy]
  rw [List.take_of_length_le (le_of_eq hlen), hlen]
  simp

/-! ## C10: `_get_leds` classifies the colour of pixel 0 -/

theorem get_leds_first_match (eps red green blue : ℚ) (l : LEDs) (nv : nvObj_t)
    (hc : (l.display_color.headD display_color_declared).getRGB = (red, green, blue)) :
    _get_leds eps l nv =
      ({ value := (first_match eps red green blue led_colours).getD nv.value,
         valuetype := valueType.TYPE_INT }, STAT_OK) := by
  simp only [_get_leds, hc, first_match, led_colours, colour_matches]
  split_ifs <;> rfl

theorem colour_matches_exclusive (eps red green blue : ℚ) (h4 : eps ≤ 1 / 4)
    (e1 e2 : (ℚ × ℚ × ℚ) × ℚ) (h1 : e1 ∈ led_colours) (h2 : e2 ∈ led_colours)
    (m1 : colour_matches eps red green blue e1.1 = true)
    (m2 : colour_matches eps red green blue e2.1 = true) : e1 = e2 := by
  simp only [led_colours, List.mem_cons, List.mem_singleton, List.not_mem_nil, or_false] at h1 h2
  simp only [colour_matches, fp_EQ, Bool.and_eq_true, decide_eq_true_eq, abs_lt] at m1 m2
  obtain ⟨⟨⟨a1, a2⟩, ⟨a3, a4⟩⟩, ⟨a5, a6⟩⟩ := m1
  obtain ⟨⟨⟨b1, b2⟩, ⟨b3, b4⟩⟩, ⟨b5, b6⟩⟩ := m2
  rcases h1 with rfl | rfl | rfl | rfl | rfl | rfl | rfl <;>
    rcases h2 with rfl | rfl | rfl | rfl | rfl | rfl | rfl <;>
    first
      | rfl
      | (exfalso; simp only at a1 a2 a3 a4 a5 a6 b1 b2 b3 b4 b5 b6; linarith)

theorem first_match_of_mem (eps red green blue : ℚ) (L : List ((ℚ × ℚ × ℚ) × ℚ))
    (hex : ∀ e1 ∈ L, ∀ e2 ∈ L, colour_matches eps red green blue e1.1 = true →
      colour_matches eps red green blue e2.1 = true → e1 = e2)
    (e : (ℚ × ℚ × ℚ) × ℚ) (he : e ∈ L)
    (hm : colour_matches eps red green blue e.1 = true) :
    first_match eps red green blue L = some e.2 := by
  induction L with
  | nil => cases he
  | cons x xs ih =>
    by_cases hx : colour_matches eps red green blue x.1 = true
    · have hxe : x = e := hex x (List.mem_cons_self _ _) e he hx hm
      subst hxe
      simp [first_match, hx]
    · have hne : e ≠ x := fun h => hx (h ▸ hm)
      have hmem : e ∈ xs := by
        rcases List.mem_cons.mp he with h | h
        · exact absurd h hne
        · exact h
      have hrest : ∀ e1 ∈ xs, ∀ e2 ∈ xs, colour_matches eps red green blue e1.1 = true →
          colour_matches eps red green blue e2.1 = true → e1 = e2 :=
        fun e1 h1 e2 h2 => hex e1 (List.mem_cons_of_mem _ h1) e2 (List.mem_cons_of_mem _ h2)
      simp only [first_match, hx]
      exact ih hrest hmem

theorem first_match_none (eps red green blue : ℚ) (L : List ((ℚ × ℚ × ℚ) × ℚ))
    (hno : ∀ e ∈ L, colour_matches eps red green blue e.1 = false) :
    first_match eps red green blue L = none := by
  induction L with
  | nil => rfl
  | cons x xs ih =>
    have hx : colour_matches eps red green blue x.1 = false := hno x (List.mem_cons_self _ _)
    simp only [first_match, hx]
    exact ih (fun e he => hno e (List.mem_cons_of_mem _ he))

theorem first_match_perm (eps red green blue : ℚ) (h4 : eps ≤ 1 / 4)
    (branches : List ((ℚ × ℚ × ℚ) × ℚ)) (hp : branches.Perm led_colours) :
    first_match eps red green blue branches = first_match eps red green blue led_colours := by
  have hex := colour_matches_exclusive eps red green blue h4
  by_cases hsome : ∃ e ∈ led_colours, colour_matches eps red green blue e.1 = true
  · obtain ⟨e, he, hm⟩ := hsome
    rw [first_match_of_mem eps red green blue led_colours
          (fun e1 h1 e2 h2 => hex e1 e2 h1 h2) e he hm,
        first_match_of_mem eps red green blue branches
          (fun e1 h1 e2 h2 => hex e1 e2 (hp.mem_iff.mp h1) (hp.mem_iff.mp h2))
          e (hp.mem_iff.mpr he) hm]
  · have hno : ∀ e ∈ led_colours, colour_matches eps red green blue e.1 = false := by
      intro e he
      cases hm : colour_matches eps red green blue e.1
      · rfl
      · exact absurd ⟨e, he, hm⟩ hsome
    rw [first_match_none eps red green blue led_colours hno,
        first_match_none eps red green blue branches
          (fun e he => hno e (hp.mem_iff.mp he))]

/-- C10: for a rendered colour `(red, green, blue)` of pixel 0 and a tolerance
`0 < eps ≤ 1/4`, `_get_leds` sets `nv->value` to 0..6 when the colour is within `eps` per
channel of black, white, red, green, blue, orange, yellow respectively; at most one of the
seven tests holds, so every order of the branches gives the same result; when none holds
`nv->value` is left as it was; always `nv->valuetype` is `TYPE_INT` and the status is
`STAT_OK`. -/
theorem get_leds_classifies (eps red green blue : ℚ) (l : LEDs) (nv : nvObj_t)
    (h0 : 0 < eps) (h4 : eps ≤ 1 / 4)
    (hc : (l.display_color.headD display_color_declared).getRGB = (red, green, blue)) :
    (∀ e ∈ led_colours, colour_matches eps red green blue e.1 = true →
      (_get_leds eps l nv).1.value = e.2) ∧
    (∀ e1 ∈ led_colours, ∀ e2 ∈ led_colours,
      colour_matches eps red green blue e1.1 = true →
      colour_matches eps red green blue e2.1 = true → e1 = e2) ∧
    (∀ e ∈ led_colours, colour_matches eps e.1.1 e.1.2.1 e.1.2.2 e.1 = true) ∧
    (∀ branches : List ((ℚ × ℚ × ℚ) × ℚ), branches.Perm led_colours →
      (_get_leds eps l nv).1.value = (first_match eps red green blue branches).getD nv.value) ∧
    ((∀ e ∈ led_colours, colour_matches eps red green blue e.1 = false) →
      (_get_leds eps l nv).1.value = nv.value) ∧
    (_get_leds eps l nv).1.valuetype = valueType.TYPE_INT ∧
    (_get_leds eps l nv).2 = STAT_OK := by
  have hex := colour_matches_exclusive eps red green blue h4
  rw [get_leds_first_match eps red green blue l nv hc]
  refine ⟨?_, fun e1 h1 e2 h2 => hex e1 e2 h1 h2, ?_, ?_, ?_, rfl, rfl⟩
  · intro e he hm
    simp [first_match_of_mem eps red green blue led_colours
      (fun e1 h1 e2 h2 => hex e1 e2 h1 h2) e he hm]
  · intro e he
    simp only [led_colours, List.mem_cons, List.mem_singleton, List.not_mem_nil, or_false] at he
    rcases he with rfl | rfl | rfl | rfl | rfl | rfl | rfl <;>
      simp [colour_matches, fp_EQ, h0]
  · intro branches hp
    rw [first_match_perm eps red green blue h4 branches hp]
  · intro hno
    simp [first_match_none eps red green blue led_colours hno]

/-- Witness of C10: with tolerance `1/100000` and `display_color[0]` orange,
`_get_leds` reports 5 with type `TYPE_INT`. -/
theorem get_leds_classifies_witness :
    (0 : ℚ) < 1 / 100000 ∧ (1 / 100000 : ℚ) ≤ 1 / 4 ∧
    (_get_leds (1 / 100000) leds_orange ⟨42, valueType.TYPE_NULL⟩).1.value = 5 ∧
    (_get_leds (1 / 100000) leds_orange ⟨42, valueType.TYPE_NULL⟩).1.valuetype
      = valueType.TYPE_INT ∧
    (_get_leds (1 / 100000) leds_orange ⟨42, valueType.TYPE_NULL⟩).2 = STAT_OK :=
  have h := get_leds_classifies (1 / 100000) 1 (1 / 2) 0 leds_orange
    ⟨42, valueType.TYPE_NULL⟩ (by norm_num) (by norm_num)
    (by simp [leds_orange, RGB_Color_t.getRGB, RGB_Color_t.rendered, RGB_Color_t.active,
          RGB_Color_t.ofChannels])
  ⟨by norm_num, by norm_num,
   h.1 ((1, 1 / 2, 0), 5) (by simp [led_colours]) (by norm_num [colour_matches, fp_EQ]),
   h.2.2.2.2.2.1, h.2.2.2.2.2.2⟩

/-! ## C11: `_set_leds` unpacks the value into three channels -/

theorem to_uint32_natCast (value : Nat) (hv : value < 2 ^ 32) :
    to_uint32 (value : ℚ) = value := by
  have hfloor : (value : ℚ).floor = (value : ℤ) := by
    rw [Rat.floor_def']
    simp
  rw [to_uint32, hfloor, Int.toNat_ofNat]
  exact Nat.mod_eq_of_lt hv

theorem set_pixel_loop (ps : List Nat) (hps : ps ≠ []) (red green blue : Nat)
    (np : NeoPixel) :
    ps.foldl (fun acc _pixel => acc.setPixelRGB 0 red green blue) np
      = np.setPixelRGB 0 red green blue := by
  induction ps generalizing np with
  | nil => exact absurd rfl hps
  | cons p ps ih =>
    rw [List.foldl_cons]
    cases ps with
    | nil => rfl
    | cons q qs =>
      rw [ih (List.cons_ne_nil q qs)]
      simp [NeoPixel.setPixelRGB, NeoPixel.setPixel]

theorem set_leds_pixels (value : Nat) (vt : valueType) (l : LEDs) (hv : value < 2 ^ 32)
    (hcount : 0 < l.rgbw_leds.count) :
    (_set_leds l ⟨value, vt⟩).1.rgbw_leds.pixels =
      l.rgbw_leds.pixels.set 0
        ⟨((value &&& 0xFF : Nat) : ℚ), (((value >>> 8) &&& 0xFF : Nat) : ℚ),
         ((value >>> 16 : Nat) : ℚ), 0⟩ := by
  have hrange : List.range l.rgbw_leds.count ≠ [] := by
    intro h
    have hlen := congrArg List.length h
    simp at hlen
    omega
  simp only [_set_leds, to_uint32_natCast value hv, set_pixel_loop _ hrange]
  rfl

theorem unpack_arith (value : Nat) :
    value &&& 0xFF = value % 256 ∧ (value >>> 8) &&& 0xFF = value / 256 % 256 ∧
    value >>> 16 = value / 65536 := by
  have hand : ∀ x : Nat, x &&& 0xFF = x % 256 := fun x =>
    Nat.and_pow_two_sub_one_eq_mod x 8
  refine ⟨hand value, ?_, ?_⟩
  · rw [hand, Nat.shiftRight_eq_div_pow]
  · rw [Nat.shiftRight_eq_div_pow]

theorem set_leds_head (value : Nat) (vt : valueType) (l : LEDs) (hv : value < 2 ^ 32)
    (hcount : 0 < l.rgbw_leds.count) (hpix : l.rgbw_leds.pixels ≠ []) :
    (_set_leds l ⟨value, vt⟩).1.rgbw_leds.pixels.head? =
      some ⟨((value &&& 0xFF : Nat) : ℚ), (((value >>> 8) &&& 0xFF : Nat) : ℚ),
            ((value >>> 16 : Nat) : ℚ), 0⟩ := by
  rw [set_leds_pixels value vt l hv hcount]
  cases hp : l.rgbw_leds.pixels with
  | nil => exact absurd hp hpix
  | cons x xs => rfl

/-- C11: `_set_leds` writes to pixel 0 the channels red = `value & 0xFF`,
green = `(value >> 8) & 0xFF`, blue = `value >> 16` of its 32-bit value. For a value below
`2^24` each channel is in 0..255 and red + 256 * green + 65536 * blue is the value, so
two such values giving the same pixel are equal; for a value of `2^24` or more the blue
channel is at least 256. -/
theorem set_leds_unpacks (value : Nat) (vt : valueType) (l : LEDs) (hv : value < 2 ^ 32)
    (hcount : 0 < l.rgbw_leds.count) (hpix : l.rgbw_leds.pixels ≠ []) :
    (_set_leds l ⟨value, vt⟩).1.rgbw_leds.pixels.head? =
      some ⟨((value &&& 0xFF : Nat) : ℚ), (((value >>> 8) &&& 0xFF : Nat) : ℚ),
            ((value >>> 16 : Nat) : ℚ), 0⟩ ∧
    (_set_leds l ⟨value, vt⟩).2 = STAT_OK ∧
    (value < 2 ^ 24 →
      value &&& 0xFF ≤ 255 ∧ (value >>> 8) &&& 0xFF ≤ 255 ∧ value >>> 16 ≤ 255 ∧
      (value &&& 0xFF) + 256 * ((value >>> 8) &&& 0xFF) + 65536 * (value >>> 16) = value) ∧
    (∀ (other : Nat) (vt2 : valueType), value < 2 ^ 24 → other < 2 ^ 24 →
      (_set_leds l ⟨value, vt⟩).1.rgbw_leds.pixels.head? =
        (_set_leds l ⟨other, vt2⟩).1.rgbw_leds.pixels.head? → value = other) ∧
    (2 ^ 24 ≤ value → 256 ≤ value >>> 16) := by
  obtain ⟨hr, hg, hb⟩ := unpack_arith value
  refine ⟨set_leds_head value vt l hv hcount hpix, rfl, ?_, ?_, ?_⟩
  · intro h24
    rw [hr, hg, hb]
    omega
  · intro other vt2 h24 ho heq
    have hov : other < 2 ^ 32 := by omega
    rw [set_leds_head value vt l hv hcount hpix,
        set_leds_head other vt2 l hov hcount hpix] at heq
    simp only [Option.some.injEq, Color.mk.injEq, Nat.cast_inj, and_true] at heq
    obtain ⟨hr2, hg2, hb2⟩ := unpack_arith other
    rw [hr, hg, hb, hr2, hg2, hb2] at heq
    omega
  · intro h24
    rw [hb]
    omega

/-- Witness of C11: the value `0x123456` on the declared one-pixel strip gives red `0x56`,
green `0x34`, blue `0x12`. -/
theorem set_leds_unpacks_witness :
    (_set_leds (LEDs.declared cmMachineState.IDLE)
        ⟨(1193046 : Nat), valueType.TYPE_INT⟩).1.rgbw_leds.pixels.head? =
      some ⟨((1193046 &&& 0xFF : Nat) : ℚ), (((1193046 >>> 8) &&& 0xFF : Nat) : ℚ),
            ((1193046 >>> 16 : Nat) : ℚ), 0⟩ ∧
    (1193046 &&& 0xFF = 86 ∧ (1193046 >>> 8) &&& 0xFF = 52 ∧ 1193046 >>> 16 = 18) ∧
    (1193046 &&& 0xFF) + 256 * ((1193046 >>> 8) &&& 0xFF) + 65536 * (1193046 >>> 16)
      = 1193046 :=
  have h := set_leds_unpacks 1193046 valueType.TYPE_INT (LEDs.declared cmMachineState.IDLE)
    (by decide) (by decide) (by decide)
  ⟨h.1, by decide, (h.2.2.1 (by decide)).2.2.2⟩

/-! ## C12: axis homing inputs -/

/-- C12: every axis homing input of the tm240 profile is 0 or the number, in 1..9, of a
digital input whose mode is not `IO_MODE_DISABLED`; X homes on DI4 and Y on DI5, both
`NORMALLY_OPEN` with function `INPUT_FUNCTION_LIMIT`, and Z, A, B, C have homing
disabled. -/
theorem homing_inputs_usable (a : Axis) (hn : homing_input a ≠ 0) :
    (1 ≤ homing_input a ∧ homing_input a ≤ 9) ∧
    (∃ d : DigitalInput, digital_input (homing_input a) = some d ∧
      d.mode ≠ IO_MODE_DISABLED ∧ d.mode = NORMALLY_OPEN ∧
      d.function = INPUT_FUNCTION_LIMIT) ∧
    (a = Axis.X ∨ a = Axis.Y) ∧
    homing_input Axis.X = 4 ∧ homing_input Axis.Y = 5 ∧
    homing_input Axis.Z = 0 ∧ homing_input Axis.A = 0 ∧
    homing_input Axis.B = 0 ∧ homing_input Axis.C = 0 := by
  cases a
  case X => exact ⟨by decide, ⟨_, rfl, by decide, rfl, rfl⟩, by decide, rfl, rfl, rfl, rfl, rfl, rfl⟩
  case Y => exact ⟨by decide, ⟨_, rfl, by decide, rfl, rfl⟩, by decide, rfl, rfl, rfl, rfl, rfl, rfl⟩
  all_goals exact absurd rfl hn

/-- Witness of C12: the X axis homes on input DI4. -/
theorem homing_inputs_usable_witness :
    homing_input Axis.X ≠ 0 ∧ (1 ≤ homing_input Axis.X ∧ homing_input Axis.X ≤ 9) ∧
    (∃ d : DigitalInput, digital_input (homing_input Axis.X) = some d ∧
      d.mode ≠ IO_MODE_DISABLED ∧ d.mode = NORMALLY_OPEN ∧
      d.function = INPUT_FUNCTION_LIMIT) :=
  have h := homing_inputs_usable Axis.X (by decide)
  ⟨by decide, h.1, h.2.1⟩

end G2
